import Mathlib

/-!
Verification of the CardioScan LVNC scan signal pipeline (src/lvnc-app.py).

The pipeline is embedded shallowly: the Python numeric expressions are
translated into Lean functions over ℚ and ℕ (ideal arithmetic), with
Python's `int()` truncation made explicit and the random draws turned into
explicit parameters or support sets.
-/

namespace LVNC

/-- Python's `int()` applied to a real quantity: truncation toward zero
(floor for non-negative arguments, ceiling for negative ones). -/
def py_int (q : ℚ) : ℤ := if 0 ≤ q then ⌊q⌋ else ⌈q⌉

/-- Support of numpy's `np.random.randint(low, high)`: the integers in the
half-open interval `[low, high)` — the upper bound is exclusive in numpy. -/
def randint_support (low high : ℤ) : Finset ℤ := Finset.Ico low high

/-- Support of the perturbation draw `np.random.randint(0, 15)` at
src/lvnc-app.py line 207. -/
def perturbation_support : Finset ℤ := randint_support 0 15

/-- The weighted sum inside `int(...)` at src/lvnc-app.py lines 203-208:
`30*(nc_ratio - 1.5) + 25*(1 - ejection_fraction/65) + 20*trabeculation_score`
plus the perturbation term. -/
def raw (nc_ratio ejection_fraction trabeculation_score : ℚ) (perturbation : ℤ) : ℚ :=
  30 * (nc_ratio - 3/2) + 25 * (1 - ejection_fraction / 65) +
    20 * trabeculation_score + perturbation

/-- `risk_score = min(100, int(...))` at src/lvnc-app.py lines 203-208, with
the random perturbation draw as an explicit parameter. -/
def risk_score (nc_ratio ejection_fraction trabeculation_score : ℚ) (perturbation : ℤ) : ℤ :=
  min 100 (py_int (raw nc_ratio ejection_fraction trabeculation_score perturbation))

/-- The metric-card band at src/lvnc-app.py line 215:
`"High Risk" if risk_score > 60 else "Moderate" if risk_score > 40 else "Low"`. -/
def metric_card_band (score : ℤ) : String :=
  if score > 60 then "High Risk" else if score > 40 then "Moderate" else "Low"

/-- The three clinical-recommendation messages of src/lvnc-app.py lines 241-267. -/
inductive Recommendation where
  | urgentReferral
  | moderateSuspicion
  | lowProbability
  deriving DecidableEq

/-- The recommendation band at src/lvnc-app.py lines 241-260: urgent referral
when `risk_score > 70`, moderate suspicion when `risk_score > 45`, low
probability otherwise. -/
def recommendation_band (score : ℤ) : Recommendation :=
  if score > 70 then .urgentReferral
  else if score > 45 then .moderateSuspicion
  else .lowProbability

/-- `chunk_size = int(samples/100)` at src/lvnc-app.py line 146 (truncating
division of a non-negative count is Nat division). -/
def chunk_size (samples : ℕ) : ℕ := samples / 100

/-- `display_samples = min((i+1)*chunk_size, samples)` at src/lvnc-app.py
line 147: the end-index of the reveal window at step `i`. -/
def display_samples (samples i : ℕ) : ℕ := min ((i + 1) * chunk_size samples) samples

/-- The reveal windows produced by the loop `for i in range(100)` at
src/lvnc-app.py line 140: one end-index per step. -/
def step_windows (samples : ℕ) : List ℕ := (List.range 100).map (display_samples samples)

/-- `samples = int(duration * sample_rate)` at src/lvnc-app.py line 123. -/
def sample_count (sample_rate : ℕ) (duration : ℚ) : ℕ :=
  (py_int (duration * sample_rate)).toNat

/-- Entry `i` of `t = np.linspace(0, duration, samples, endpoint=False)` at
src/lvnc-app.py line 124: `t[i] = i * duration / samples`. -/
def time_index (sample_rate : ℕ) (duration : ℚ) (i : ℕ) : ℚ :=
  i * duration / (sample_count sample_rate duration : ℚ)

/-- A power spectral density estimate: paired frequency and power sequences. -/
structure SpectralEstimate where
  frequencies : List ℝ
  power : List ℝ

/-- Modelled from the spec: the effective segment length used by the spectral
estimator realized by the external `scipy.signal.welch` call at
src/lvnc-app.py line 167 (library code, not among the repository's sources).
Per the spec, the estimator degrades the effective segment length to
`len(samples)` when `len(samples) < segmentLength`. -/
def effective_nperseg (nperseg n : ℕ) : ℕ := min nperseg n

/-- Modelled from the spec: the Hann window coefficient used to window each
segment before the FFT. -/
noncomputable def hann (N j : ℕ) : ℝ :=
  (1 - Real.cos (2 * Real.pi * (j : ℝ) / (N : ℝ))) / 2

/-- Modelled from the spec: squared magnitude of the discrete Fourier
transform of a windowed segment at frequency bin `k`. -/
noncomputable def dft_mag_sq (seg : List ℝ) (N k : ℕ) : ℝ :=
  Complex.normSq (Finset.sum (Finset.range N) (fun j =>
    ((hann N j * seg.getD j 0 : ℝ) : ℂ) *
      Complex.exp (-(2 * Real.pi * (j : ℝ) * (k : ℝ) / (N : ℝ) : ℝ) * Complex.I)))

/-- Modelled from the spec: the start offsets of the overlapping segments of
length `N` (hop `N - N/2`, i.e. 50 percent overlap) covering `n` samples. -/
def segment_starts (n N : ℕ) : List ℕ :=
  (List.range ((n - N) / (N - N / 2) + 1)).map (fun s => s * (N - N / 2))

/-- Modelled from the spec: the Welch-method power spectral density estimator
realized by the external `scipy.signal.welch(samples, sample_rate,
nperseg=1024)` call at src/lvnc-app.py line 167, whose implementation is not
part of the repository's sources. Per the spec it partitions the samples into
overlapping segments of the effective segment length, windows each, takes the
FFT, averages the squared magnitudes across segments and scales by the sample
rate, returning the one-sided spectrum; it is defined for every non-empty
sample sequence, degrading the segment length when the input is short. -/
noncomputable def welch (samples : List ℝ) (sample_rate nperseg : ℕ) :
    Option SpectralEstimate :=
  if samples.isEmpty then none
  else
    let N := effective_nperseg nperseg samples.length
    let segs := (segment_starts samples.length N).map (fun s => (samples.drop s).take N)
    some
      { frequencies := (List.range (N / 2 + 1)).map (fun (k : ℕ) => (k : ℝ) * sample_rate / N)
        power := (List.range (N / 2 + 1)).map (fun k =>
          ((segs.map (fun seg => dft_mag_sq seg N k)).sum / (segs.length : ℝ)) /
            (sample_rate : ℝ)) }

lemma py_int_of_nonneg {q : ℚ} (h : 0 ≤ q) : py_int q = ⌊q⌋ := if_pos h

lemma py_int_mono {a b : ℚ} (h : a ≤ b) : py_int a ≤ py_int b := by
  unfold py_int
  rcases le_or_lt 0 a with ha | ha
  · rw [if_pos ha, if_pos (ha.trans h)]
    exact Int.floor_le_floor h
  · rcases le_or_lt 0 b with hb | hb
    · rw [if_neg (not_le.mpr ha), if_pos hb]
      exact le_trans (Int.ceil_le.mpr (by exact_mod_cast ha.le)) (Int.floor_nonneg.mpr hb)
    · rw [if_neg (not_le.mpr ha), if_neg (not_le.mpr hb)]
      exact Int.ceil_le_ceil h

/-- C1, counterexample: 15 is not a possible value of the perturbation term.
The claim says the perturbation is drawn from the integers in [0,15]
inclusive, but `np.random.randint(0, 15)` excludes its upper bound. -/
theorem perturbation_fifteen_impossible : (15 : ℤ) ∉ perturbation_support := by
  decide

/-- C1, amended: the perturbation added to the risk score is drawn from the
integers in [0,14] inclusive — every integer from 0 through 14 is a possible
value of the perturbation term, and no other value is. -/
theorem perturbation_support_eq : ∀ p : ℤ, p ∈ perturbation_support ↔ 0 ≤ p ∧ p ≤ 14 := by
  intro p
  simp only [perturbation_support, randint_support, Finset.mem_Ico]
  omega

/-- C2, counterexample: for a buffer of 150 samples, `chunkSize = 1` and the
final (100th) window's end-index is `min(100*1, 150) = 100`, not the buffer
length 150. -/
theorem last_window_short_at_150 :
    display_samples 150 99 = 100 ∧ display_samples 150 99 ≠ 150 := by
  constructor <;> decide

/-- C2, amended: for a buffer of `n` samples streamed in 100 steps with
`chunkSize = floor(n/100)`, the final (100th) window's end-index equals the
buffer length exactly when 100 divides `n`; in particular it does for the
app's fixed sample count `44100 * 10 = 441000`. -/
theorem last_window_full_iff :
    (∀ n : ℕ, display_samples n 99 = n ↔ 100 ∣ n) ∧
      display_samples 441000 99 = 441000 := by
  constructor
  · intro n
    simp only [display_samples, chunk_size]
    omega
  · norm_num [display_samples, chunk_size]

/-- C3, counterexample: `sampleRate = 3` and `durationSeconds = 1/2` form a
valid ScanConfig, yet `samples = int(duration * sample_rate) = int(3/2) = 1`,
which differs from `sampleRate * durationSeconds = 3/2`. -/
theorem sample_count_not_exact :
    0 < (3 : ℕ) ∧ (0 : ℚ) < 1/2 ∧ (sample_count 3 (1/2) : ℚ) ≠ (1/2) * 3 := by
  refine ⟨by norm_num, by norm_num, ?_⟩
  norm_num [sample_count, py_int]

/-- C3, amended: whenever `sampleRate * durationSeconds` is a whole number
`n` (as in the reference configuration `44100 * 10`), the synthesized buffer
has length exactly `n` and its time-index sequence starts at 0, has constant
step `1/sampleRate`, satisfies `t[i] = i/sampleRate`, and is strictly
increasing; in general the length is the truncation of
`durationSeconds * sampleRate`. -/
theorem synthesize_buffer_exact (sample_rate : ℕ) (duration : ℚ) (n : ℕ)
    (hr : 0 < sample_rate) (hd : 0 < duration)
    (hn : duration * (sample_rate : ℚ) = (n : ℚ)) :
    sample_count sample_rate duration = n ∧
    time_index sample_rate duration 0 = 0 ∧
    (∀ i : ℕ, time_index sample_rate duration i = (i : ℚ) / (sample_rate : ℚ)) ∧
    (∀ i : ℕ, time_index sample_rate duration (i + 1) - time_index sample_rate duration i
        = 1 / (sample_rate : ℚ)) ∧
    (∀ i j : ℕ, i < j →
        time_index sample_rate duration i < time_index sample_rate duration j) := by
  have hrQ : (0 : ℚ) < (sample_rate : ℚ) := by exact_mod_cast hr
  have hnQ : (0 : ℚ) < (n : ℚ) := hn ▸ mul_pos hd hrQ
  have hcount : sample_count sample_rate duration = n := by
    rw [sample_count, hn, py_int_of_nonneg hnQ.le, Int.floor_natCast, Int.toNat_natCast]
  have hti : ∀ i : ℕ, time_index sample_rate duration i = (i : ℚ) / (sample_rate : ℚ) := by
    intro i
    rw [time_index, hcount]
    rw [div_eq_div_iff (ne_of_gt hnQ) (ne_of_gt hrQ)]
    rw [mul_assoc, hn]
  refine ⟨hcount, by rw [hti 0]; norm_num, hti, ?_, ?_⟩
  · intro i
    rw [hti, hti, div_sub_div_same]
    congr 1
    push_cast
    ring
  · intro i j hij
    rw [hti, hti, div_lt_div_iff_of_pos_right hrQ]
    exact_mod_cast hij

/-- Witness for the amended C3 at the reference configuration
`sampleRate = 44100`, `durationSeconds = 10`, `n = 441000`. -/
theorem synthesize_buffer_exact_witness :
    sample_count 44100 10 = 441000 ∧
    time_index 44100 10 0 = 0 ∧
    (∀ i : ℕ, time_index 44100 10 i = (i : ℚ) / (44100 : ℚ)) ∧
    (∀ i : ℕ, time_index 44100 10 (i + 1) - time_index 44100 10 i = 1 / (44100 : ℚ)) ∧
    (∀ i j : ℕ, i < j → time_index 44100 10 i < time_index 44100 10 j) :=
  synthesize_buffer_exact 44100 10 441000 (by norm_num) (by norm_num) (by norm_num)

/-- C4: for biomarkers within the documented ranges and any perturbation in
[0,15], the risk score equals `min(100, floor(raw))` (Python's `int()`
truncation coincides with floor because the weighted sum is non-negative
there) and lies in [0,100]. -/
theorem risk_score_formula_and_bounds (nc ef trab : ℚ) (p : ℤ)
    (h1 : 3/2 ≤ nc) (h2 : nc ≤ 14/5) (h3 : 35 ≤ ef) (h4 : ef ≤ 65)
    (h5 : 2/5 ≤ trab) (h6 : trab ≤ 9/10) (h7 : 0 ≤ p) (h8 : p ≤ 15) :
    risk_score nc ef trab p = min 100 ⌊raw nc ef trab p⌋ ∧
    0 ≤ risk_score nc ef trab p ∧ risk_score nc ef trab p ≤ 100 := by
  have hp : (0 : ℚ) ≤ (p : ℚ) := by exact_mod_cast h7
  have hraw : (8 : ℚ) ≤ raw nc ef trab p := by unfold raw; linarith
  have h0 : (0 : ℚ) ≤ raw nc ef trab p := by linarith
  refine ⟨by rw [risk_score, py_int_of_nonneg h0], ?_, min_le_left _ _⟩
  rw [risk_score, py_int_of_nonneg h0]
  have h8' : (8 : ℤ) ≤ ⌊raw nc ef trab p⌋ := Int.le_floor.mpr (by exact_mod_cast hraw)
  omega

/-- Witness for C4 at the spec's scenario markers with perturbation 15. -/
theorem risk_score_formula_and_bounds_witness :
    risk_score (5/2) 35 (17/20) 15 = min 100 ⌊raw (5/2) 35 (17/20) 15⌋ ∧
    0 ≤ risk_score (5/2) 35 (17/20) 15 ∧ risk_score (5/2) 35 (17/20) 15 ≤ 100 :=
  risk_score_formula_and_bounds (5/2) 35 (17/20) 15 (by norm_num) (by norm_num)
    (by norm_num) (by norm_num) (by norm_num) (by norm_num) (by norm_num) (by norm_num)

/-- C5: for markers `ncRatio = 2.5`, `ejectionFraction = 35`,
`trabeculationScore = 0.85` and perturbation 15, the risk score is 73, the
metric-card band (computed from the score alone, threshold 60) is
"High Risk", and the recommendation band (computed from the score alone,
threshold 70) is the urgent-referral recommendation. -/
theorem scenario_perturbation_fifteen :
    risk_score (5/2) 35 (17/20) 15 = 73 ∧
    metric_card_band (risk_score (5/2) 35 (17/20) 15) = "High Risk" ∧
    recommendation_band (risk_score (5/2) 35 (17/20) 15) = .urgentReferral := by
  have h : risk_score (5/2) 35 (17/20) 15 = 73 := by
    norm_num [risk_score, raw, py_int]
  exact ⟨h, by rw [h]; rfl, by rw [h]; rfl⟩

/-- C6: for markers `ncRatio = 2.5`, `ejectionFraction = 35`,
`trabeculationScore = 0.85` and perturbation 0, the risk score is 58, the
metric-card band is "Moderate", and the recommendation band is the
moderate-suspicion recommendation. -/
theorem scenario_perturbation_zero :
    risk_score (5/2) 35 (17/20) 0 = 58 ∧
    metric_card_band (risk_score (5/2) 35 (17/20) 0) = "Moderate" ∧
    recommendation_band (risk_score (5/2) 35 (17/20) 0) = .moderateSuspicion := by
  have h : risk_score (5/2) 35 (17/20) 0 = 58 := by
    norm_num [risk_score, raw, py_int]
  exact ⟨h, by rw [h]; rfl, by rw [h]; rfl⟩

/-- C7: the risk score is monotonically non-decreasing in `ncRatio`, in
`1 - ejectionFraction/65`, and in `trabeculationScore`, the perturbation held
fixed; taking any two of the three increases to be trivial specializes this
to monotonicity in each quantity separately. -/
theorem risk_score_monotone (nc nc' ef ef' trab trab' : ℚ) (p : ℤ)
    (h1 : nc ≤ nc') (h2 : 1 - ef / 65 ≤ 1 - ef' / 65) (h3 : trab ≤ trab') :
    risk_score nc ef trab p ≤ risk_score nc' ef' trab' p := by
  unfold risk_score
  exact min_le_min le_rfl (py_int_mono (by unfold raw; linarith))

/-- Witness for C7: a concrete increase of all three quantities. -/
theorem risk_score_monotone_witness :
    risk_score 2 50 (1/2) 7 ≤ risk_score (5/2) 40 (3/5) 7 :=
  risk_score_monotone 2 (5/2) 50 40 (1/2) (3/5) 7 (by norm_num) (by norm_num) (by norm_num)

/-- C10: with `ncRatio ≥ 1.5`, `ejectionFraction ≤ 65`,
`trabeculationScore ≥ 0.4` and a non-negative perturbation, the raw weighted
sum is at least 8 and hence the risk score is at least 8, so the clamp needs
no lower bound and scores 0 through 7 are unreachable. -/
theorem risk_score_lower_bound (nc ef trab : ℚ) (p : ℤ)
    (h1 : 3/2 ≤ nc) (h2 : ef ≤ 65) (h3 : 2/5 ≤ trab) (h4 : 0 ≤ p) :
    8 ≤ raw nc ef trab p ∧ 8 ≤ risk_score nc ef trab p := by
  have hp : (0 : ℚ) ≤ (p : ℚ) := by exact_mod_cast h4
  have hraw : (8 : ℚ) ≤ raw nc ef trab p := by unfold raw; linarith
  refine ⟨hraw, ?_⟩
  rw [risk_score, py_int_of_nonneg (by linarith)]
  have h8' : (8 : ℤ) ≤ ⌊raw nc ef trab p⌋ := Int.le_floor.mpr (by exact_mod_cast hraw)
  omega

/-- Witness for C10 at concrete in-range markers and perturbation 0. -/
theorem risk_score_lower_bound_witness :
    8 ≤ raw 2 50 (1/2) 0 ∧ 8 ≤ risk_score 2 50 (1/2) 0 :=
  risk_score_lower_bound 2 50 (1/2) 0 (by norm_num) (by norm_num) (by norm_num)
    (by norm_num)

/-- C8: for every sample count, the streaming loop produces exactly 100
reveal windows, and the end-indices are non-decreasing across the steps: no
window ever shrinks. -/
theorem step_windows_count_monotone : ∀ samples : ℕ,
    (step_windows samples).length = 100 ∧
    ∀ i j : ℕ, i ≤ j → j < 100 →
      display_samples samples i ≤ display_samples samples j := by
  intro samples
  refine ⟨by simp [step_windows], ?_⟩
  intro i j hij hj
  exact min_le_min (Nat.mul_le_mul (by omega) le_rfl) le_rfl

/-- C9: the spectral estimator is defined for every non-empty sample sequence
shorter than the segment length 1024: the effective segment length degrades
to the input length and a SpectralEstimate (with the one-sided spectrum's
`len/2 + 1` paired bins) is returned rather than an error. -/
theorem welch_short_input_defined (samples : List ℝ) (sample_rate : ℕ)
    (hne : samples ≠ []) (hlt : samples.length < 1024) :
    effective_nperseg 1024 samples.length = samples.length ∧
    ∃ est : SpectralEstimate,
      welch samples sample_rate 1024 = some est ∧
      est.frequencies.length = samples.length / 2 + 1 ∧
      est.power.length = samples.length / 2 + 1 := by
  have heff : effective_nperseg 1024 samples.length = samples.length :=
    min_eq_right hlt.le
  refine ⟨heff, ?_⟩
  rw [welch, if_neg (by simp [hne])]
  exact ⟨_, rfl, by simp only [heff, List.length_map, List.length_range],
    by simp only [heff, List.length_map, List.length_range]⟩

/-- Witness for C9 on the one-sample sequence `[1]`. -/
theorem welch_short_input_defined_witness :
    effective_nperseg 1024 (List.length [(1 : ℝ)]) = List.length [(1 : ℝ)] ∧
    ∃ est : SpectralEstimate,
      welch [(1 : ℝ)] 44100 1024 = some est ∧
      est.frequencies.length = List.length [(1 : ℝ)] / 2 + 1 ∧
      est.power.length = List.length [(1 : ℝ)] / 2 + 1 :=
  welch_short_input_defined [(1 : ℝ)] 44100 (by simp) (by simp)

end LVNC
